import Mathlib

/-!
# Workflow Resolution Engine — shallow embedding

A shallow embedding of the workflow state machine of
`src/dashboard_api/main.py` (`resolve_workflow_step`, `generate_next_steps`,
`seed_workflow`) together with the deliverable-recommendation functions of
`src/dashboard_api/agent_intel.py` (`recommend_deliverables_llm`,
`_fallback_deliverables`, `_fallback_directions`,
`generate_strategic_directions_llm`).

Modelling conventions:
* Python JSON dictionaries stored in `options_json` are modelled by the record
  `OptionRecord` whose fields are all optional; `d.get(k, default)` becomes
  `Option.getD`, and `d[k]` on a missing key becomes an `Except.error`
  (Python `KeyError`).
* Machine floats (`budget_cap`, costs) only ever carry whole-dollar amounts in
  this engine; they are modelled as `Int`.  Python's decorative number
  formatting (`f"{x:,.0f}"`) is modelled as plain decimal rendering; the
  formatted strings only appear inside narrative `body` texts.
* Timestamps (`created_at`, `resolved_at`, `due_date`) are not modelled; the
  only observable the engine derives from them is the `status` string.
* External LLM calls are modelled as oracle inputs (`AgentOracles`): each
  oracle field is the outcome of one `try:`-guarded external call exactly as
  the call sites in `main.py` see it (`Except.error` = the call raised).
* The two `session.commit()` calls of `resolve_workflow_step` are modelled
  explicitly: the first commit persists the step-resolution marking, and an
  exception raised later (`Except.error` from `generate_next_steps`) discards
  all session adds made after that commit but keeps the first commit.
-/

/-- A Python truthiness-aware `a or b` for an optional string: `None` and the
empty string are falsy. -/
def pyOrOS (a : Option String) (b : String) : String :=
  match a with
  | some s => if s = "" then b else s
  | none => b

/-- Python `a or b` on two plain strings (empty string is falsy). -/
def pyOrSS (a b : String) : String :=
  if a = "" then b else a

/-- Python `str(x)` on an optional string: `str(None) = "None"`. -/
def pyStr (a : Option String) : String :=
  match a with
  | some s => s
  | none => "None"

/-- Python `str.strip` on a list of characters (whitespace trimmed from
both ends); written structurally so it evaluates inside the kernel. -/
def trimChars (cs : List Char) : List Char :=
  ((cs.dropWhile (fun c => c.isWhitespace)).reverse.dropWhile (fun c => c.isWhitespace)).reverse

/-- Python `str.split(',')` on a list of characters: groups between commas,
empty groups included. -/
def splitCommaChars : List Char → List (List Char)
  | [] => [[]]
  | c :: rest =>
    if c = ',' then [] :: splitCommaChars rest
    else
      match splitCommaChars rest with
      | [] => [[c]]
      | g :: gs => (c :: g) :: gs

/-- Python `str.startswith`. -/
def strStartsWith (s p : String) : Bool := p.data.isPrefixOf s.data

/-- `[k.strip() for k in s.split(',') if k.strip()]` -/
def splitKeys (s : String) : List String :=
  ((splitCommaChars s.data).map (fun cs => String.mk (trimChars cs))).filter (fun t => t ≠ "")

/-- A rendering of `json.dumps` on a list of strings (escaping is not
modelled; the result only feeds narrative project fields). -/
def jsonStrList (ss : List String) : String :=
  "[" ++ String.intercalate ", " (ss.map (fun s => "\"" ++ s ++ "\"")) ++ "]"

/-- One JSON-dictionary entry of an `options_json` array.  Every field is
optional, mirroring a Python dict: engine-created direction options carry
`key`/`title`/`description`; approval options carry `key`/`title`; catalog
entries carry `key`/`title`/`cost`/`phase`/`time_est`/`justification` and,
after budget annotation, `selected`. -/
structure OptionRecord where
  key : Option String := none
  title : Option String := none
  description : Option String := none
  cost : Option Int := none
  phase : Option String := none
  time_est : Option String := none
  justification : Option String := none
  selected : Option Bool := none
deriving DecidableEq, Repr

/-- The strategy record produced by `expand_strategy_llm` / its fallbacks;
every path through `main.py` lines 775–786 ends with all four fields
populated. -/
structure Strategy where
  positioning : String
  pillars : List String
  tensions : List String
  principles : List String
deriving DecidableEq, Repr

/-- `Project` (the fields read or written by the workflow engine,
`src/shared/db.py`). -/
structure Project where
  id : Nat
  name : String
  client_brief : String
  budget_cap : Int
  executive_summary : Option String := none
  strategic_tensions : Option String := none
  design_principles : Option String := none
  stage : String := "Strategy"
  status : String := "Intake"
  review_status : String := "PENDING"
deriving DecidableEq, Repr

/-- `WorkflowStep` (`src/shared/db.py`); `options` models the parsed
`options_json` (default `"[]"`, hence `[]`). -/
structure WorkflowStep where
  id : Nat
  project_id : Nat
  step_type : String
  agent : String
  title : String
  body : String
  options : List OptionRecord := []
  chosen_option : Option String := none
  status : String := "active"
  phase : String := "strategy"
  sort_order : Int := 0
deriving DecidableEq, Repr

/-- `Document` (fields written by the engine). -/
structure Document where
  project_id : Nat
  name : String
  category : String
  doc_type : String
  content : String
deriving DecidableEq, Repr

/-- `Deliverable` (fields written by the engine). -/
structure Deliverable where
  project_id : Nat
  title : String
  status : String
  owner : String
deriving DecidableEq, Repr

/-- `GlobalTask` (fields written by the engine; `due_date` not modelled). -/
structure GlobalTask where
  project_id : Nat
  title : String
  priority : String
  status : String
deriving DecidableEq, Repr

/-- `WorkflowResolvePayload`. -/
structure Payload where
  step_id : Nat
  action : String
  chosen_option : Option String := none
  input_text : Option String := none
deriving DecidableEq, Repr

/-- The relational store visible to the engine. -/
structure DB where
  projects : List Project
  steps : List WorkflowStep
  documents : List Document
  deliverables : List Deliverable
  tasks : List GlobalTask
deriving DecidableEq, Repr

/-- The batch of session adds and project mutations produced by one
successful `generate_next_steps` call. -/
structure NextResult where
  created : List WorkflowStep
  project : Project
  newDocuments : List Document
  newDeliverables : List Deliverable
  newTasks : List GlobalTask
deriving DecidableEq, Repr

/-- Outcomes of the external agent calls, as seen by the `try:` blocks in
`generate_next_steps`.  `dirAgent` is the `structured_data["directions"]`
list of the strategist call (`.error` = the call raised, handled at
`main.py:732`); `strategyResult` is the full strategy record after the
layered fallbacks of `main.py:775-786`; `recAgent` is the director's
`selected_keys` (`.error` = the call raised, handled at `main.py:924`);
`docContent doc_type name brief ctx` is `generate_research_doc_content`. -/
structure AgentOracles where
  dirAgent : Except String (List OptionRecord)
  strategyResult : Strategy
  recAgent : Except String (List String)
  docContent : String → String → String → String → String

/-! ## `agent_intel.py` — strategic directions and deliverable selection -/

/-- `_fallback_directions` (`agent_intel.py:115-120`). -/
def fallback_directions (project_name : String) : List OptionRecord :=
  [ { key := some "A", title := some "Market Leader",
      description := some ("Position " ++ project_name ++ " as the premium authority in the space.") },
    { key := some "B", title := some "Disruptor",
      description := some ("Challenge the status quo with a bold, unexpected approach for " ++ project_name ++ ".") },
    { key := some "C", title := some "Community-First",
      description := some ("Build " ++ project_name ++ " around deep connection and shared values.") } ]

/-- `generate_strategic_directions_llm` (`agent_intel.py:82-113`):
`llmClient = false` models `client is None`; `llmResult` is the parsed LLM
response (`.error` = the call or the JSON parse raised). -/
def generate_strategic_directions_llm (llmClient : Bool) (llmResult : Except String (List OptionRecord)) (project_name : String) : List OptionRecord :=
  if ¬ llmClient then fallback_directions project_name
  else
    match llmResult with
    | .ok ds => ds
    | .error _ => fallback_directions project_name

/-- `_safe_sub` (`agent_intel.py:225-226`). -/
def safe_sub (a b : Int) : Int := a - b

/-- `_fallback_deliverables` (`agent_intel.py:263-281`): first-fit in catalog
order, decrementing the remaining budget `r_val` as items are chosen. -/
def fallback_deliverables (budget : Int) : List OptionRecord → List String
  | [] => []
  | d :: rest =>
    let c := (d.cost).getD 0
    if c ≤ budget then (d.key).getD "" :: fallback_deliverables (safe_sub budget c) rest
    else fallback_deliverables budget rest

/-- The items `_fallback_deliverables` accepts (same recursion, keeping the
records instead of their keys; used to state cost bounds). -/
def fallback_selected (budget : Int) : List OptionRecord → List OptionRecord
  | [] => []
  | d :: rest =>
    let c := (d.cost).getD 0
    if c ≤ budget then d :: fallback_selected (safe_sub budget c) rest
    else fallback_selected budget rest

/-- `recommend_deliverables_llm` (`agent_intel.py:228-261`).  With no client
configured it filters by `cost ≤ budget` against the *full* budget
(`d["key"]` may raise `KeyError`); with a client it returns the parsed LLM
answer, falling back to `_fallback_deliverables` when the call raises. -/
def recommend_deliverables_llm (llmClient : Bool) (llmResult : Except String (List String)) (budget : Int) (all_deliverables : List OptionRecord) : Except String (List String) :=
  if ¬ llmClient then
    ((all_deliverables.filter (fun d => (d.cost).getD 0 ≤ budget)).mapM
      (fun d => match d.key with
        | some k => Except.ok k
        | none => Except.error "KeyError: 'key'"))
  else
    match llmResult with
    | .ok ks => .ok ks
    | .error _ => .ok (fallback_deliverables budget all_deliverables)

/-- Sum of the costs of the catalog entries whose key occurs in `ks`. -/
def totalCostOfKeys (cat : List OptionRecord) (ks : List String) : Int :=
  ((cat.filter (fun d => ks.contains ((d.key).getD ""))).map (fun d => (d.cost).getD 0)).sum

/-! ## `main.py` — the deliverable catalog and the budget-selection loop -/

/-- The fixed deliverable catalog (`main.py:901-911`). -/
def catalog : List OptionRecord :=
  [ { key := some "brand_strategy", title := some "Brand Strategy Document", cost := some 800,
      phase := some "Foundation", time_est := some "1 week",
      justification := some "Defines core DNA and market positioning." },
    { key := some "visual_brief", title := some "Visual Identity Brief", cost := some 600,
      phase := some "Foundation", time_est := some "3 days",
      justification := some "Translates strategy into visual direction for designers." },
    { key := some "competitor_audit", title := some "Competitor Audit Report", cost := some 500,
      phase := some "Foundation", time_est := some "4 days",
      justification := some "Identifies whitespace opportunities in the market." },
    { key := some "logo_system", title := some "Logo & Identity System", cost := some 1500,
      phase := some "Design", time_est := some "2 weeks",
      justification := some "Core asset for brand recognition across all touchpoints." },
    { key := some "brand_guidelines", title := some "Brand Guidelines", cost := some 1000,
      phase := some "Design", time_est := some "1 week",
      justification := some "Ensures consistency in future brand application." },
    { key := some "visual_templates", title := some "Key Visual Templates", cost := some 700,
      phase := some "Design", time_est := some "1 week",
      justification := some "Ready-to-use assets for social and presentations." },
    { key := some "website", title := some "Website Design & Development", cost := some 2500,
      phase := some "Production", time_est := some "3 weeks",
      justification := some "Primary digital storefront and conversion engine." },
    { key := some "social_kit", title := some "Social Media Kit", cost := some 800,
      phase := some "Production", time_est := some "1 week",
      justification := some "Launch content to build initial traction." },
    { key := some "launch_collateral", title := some "Launch Collateral", cost := some 600,
      phase := some "Production", time_est := some "1 week",
      justification := some "Physical/digital assets for launch event/campaign." } ]

/-- The budget-selection loop of the approve branch (`main.py:927-944`),
carrying the running total; `item["title"]` (`main.py:940`) raises on a
selected item without a title.  Returns the annotated catalog and the final
`running_total`. -/
def select_deliverables (recommended : List String) (budget : Int) (running_total : Int) : List OptionRecord → Except String (List OptionRecord × Int)
  | [] => .ok ([], running_total)
  | item :: rest =>
    let cost := (item.cost).getD 0
    let is_recommended := recommended.contains (pyStr item.key)
    if budget ≤ 0 ∨ (is_recommended ∧ running_total + cost ≤ budget) then
      match item.title with
      | none => .error "KeyError: 'title'"
      | some _ =>
        match select_deliverables recommended budget (running_total + cost) rest with
        | .error e => .error e
        | .ok (out, t) => .ok ({ item with selected := some true } :: out, t)
    else
      match select_deliverables recommended budget running_total rest with
      | .error e => .error e
      | .ok (out, t) => .ok ({ item with selected := some false } :: out, t)

/-! ## `main.py` — the four transition branches of `generate_next_steps` -/

/-- `next((o for o in options if o["key"] == chosen), default)`
(`main.py:770`): scans the options, raising `KeyError` on an entry without a
`key`, and returns the first match (or `none` when exhausted). -/
def findByKey (chosen : String) : List OptionRecord → Except String (Option OptionRecord)
  | [] => .ok none
  | o :: rest =>
    match o.key with
    | none => .error "KeyError: 'key'"
    | some k => if k = chosen then .ok (some o) else findByKey chosen rest

/-- The `input_needed` / "Project Brief" branch (`main.py:713-764`). -/
def branchProjectBrief (ag : AgentOracles) (resolved_step : WorkflowStep) (project : Project) (payload : Payload) : NextResult :=
  let max_order := resolved_step.sort_order
  let project' :=
    match payload.input_text with
    | some t => if t = "" then project else { project with client_brief := t }
    | none => project
  let brief := pyOrOS payload.input_text (pyOrSS project'.client_brief project'.name)
  let directions :=
    match ag.dirAgent with
    | .error e =>
      [ { key := some "A", title := some "System Error",
          description := some ("Strategist failed: " ++ e) } ]
    | .ok ds =>
      if ds.isEmpty then
        [ { key := some "A", title := some "Strategy Error",
            description := some "Could not generate strategy." } ]
      else ds
  let step : WorkflowStep := {
    id := 0, project_id := project.id, step_type := "decision_gate", agent := "Strategist",
    title := "Strategic Direction",
    body := "Based on the brief — \"" ++ brief ++ "\" — I've analyzed the market positioning, audience signals, and competitive landscape for **" ++ project.name ++ "**. Here are 3 distinct strategic directions, each leading to a different brand architecture and visual language. Choose the one that resonates most with your vision.",
    options := directions, status := "active", phase := "strategy", sort_order := max_order + 1 }
  { created := [step], project := project',
    newDocuments := [
      ⟨project.id, "Market Landscape Analysis", "Strategy", "html",
        ag.docContent "market_landscape" project.name brief ""⟩,
      ⟨project.id, "Competitive Analysis", "Strategy", "html",
        ag.docContent "competitor_analysis" project.name brief ""⟩ ],
    newDeliverables := [], newTasks := [] }

/-- The `decision_gate` / "Strategic Direction" branch (`main.py:766-859`).
`options[0]` on an empty options list raises `IndexError`
(`main.py:770`); a chosen direction without `title` or `description`
raises `KeyError` (`main.py:790,804`).  The Phase 2 task block is
duplicated verbatim in the source (`main.py:839-848` and `850-859`). -/
def branchStrategicDirection (ag : AgentOracles) (resolved_step : WorkflowStep) (project : Project) (payload : Payload) : Except String NextResult :=
  match resolved_step.options with
  | [] => .error "IndexError: list index out of range"
  | o0 :: rest =>
    match findByKey (pyOrOS payload.chosen_option "A") (o0 :: rest) with
    | .error e => .error e
    | .ok found =>
      match (found.getD o0).title, (found.getD o0).description with
      | some cdTitle, some cdDescr =>
        let max_order := resolved_step.sort_order
        let brief := pyOrSS project.client_brief project.name
        let strategy := ag.strategyResult
        let strategy_summary := strategy.positioning ++ " | Pillars: " ++ String.intercalate ", " strategy.pillars
        let strategy_body :=
          "## " ++ cdTitle ++ " — Expanded Strategy for " ++ project.name
          ++ "\n\n**Positioning**: " ++ strategy.positioning
          ++ "\n\n**Brand Pillars**:\n" ++ String.intercalate "\n" (strategy.pillars.map (fun p => "- " ++ p))
          ++ "\n\n**Strategic Tensions**:\n" ++ String.intercalate "\n" (strategy.tensions.map (fun t => "- " ++ t))
          ++ "\n\n**Design Principles**:\n" ++ String.intercalate "\n" (strategy.principles.map (fun p => "- " ++ p))
        let project' := { project with
          executive_summary := some (cdTitle ++ ": " ++ cdDescr),
          strategic_tensions := some (jsonStrList strategy.tensions),
          design_principles := some (jsonStrList strategy.principles) }
        let step : WorkflowStep := {
          id := 0, project_id := project.id, step_type := "approval_gate", agent := "Strategist",
          title := "Strategy Review", body := strategy_body,
          options := [ { key := some "approve", title := some "Approve & proceed to planning" },
                       { key := some "revise", title := some "Request revisions" } ],
          status := "active", phase := "strategy", sort_order := max_order + 1 }
        let phase2_tasks : List GlobalTask :=
          [ ⟨project.id, "Phase 2: Review Full Strategy", "High", "Todo"⟩,
            ⟨project.id, "Phase 2: Approve Brand Pillars", "High", "Todo"⟩ ]
        .ok { created := [step], project := project',
              newDocuments := [
                ⟨project.id, "Brand Positioning Report", "Strategy", "html",
                  ag.docContent "brand_positioning" project.name brief strategy_summary⟩,
                ⟨project.id, "Target Audience Profile", "Strategy", "html",
                  ag.docContent "target_audience" project.name brief strategy_summary⟩ ],
              newDeliverables := [],
              newTasks := phase2_tasks ++ phase2_tasks }
      | _, _ => .error "KeyError"

/-- One row of the audit table (`main.py:962-968`). -/
def auditRow (item : OptionRecord) : String :=
  "| **" ++ (item.title).getD "" ++ "** | $" ++ toString ((item.cost).getD 0) ++ " | "
  ++ (item.time_est).getD "-" ++ " | " ++ (item.justification).getD "" ++ " |\n"

/-- `recommended_keys` as computed at `main.py:915-925`: the director agent's
`selected_keys`, or `[]` when the call raised. -/
def recommendedKeys (ag : AgentOracles) : List String :=
  match ag.recAgent with
  | .error _ => []
  | .ok ks => ks

/-- The `approval_gate` / "Strategy Review" branch (`main.py:863-1018`).
The approve path is taken when `action == "approve"` **or**
`chosen_option == "approve"` (`main.py:865`). -/

def branchStrategyReview (ag : AgentOracles) (resolved_step : WorkflowStep) (project : Project) (payload : Payload) : Except String NextResult :=
  if payload.action = "approve" ∨ payload.chosen_option = some "approve" then
    match select_deliverables (recommendedKeys ag) project.budget_cap 0 catalog with
    | .error e => .error e
    | .ok (annotated, running_total) =>
    let max_order := resolved_step.sort_order
    let milestone : WorkflowStep := {
      id := 0, project_id := project.id, step_type := "milestone", agent := "System",
      title := "Strategy Phase Complete",
      body := "✓ Strategic direction approved. Moving to production planning.",
      status := "resolved", phase := "strategy", sort_order := max_order + 1 }
    let docs : List Document := [
      ⟨project.id, "Brand Strategy Document", "Strategy", "html",
        ag.docContent "brand_strategy_doc" project.name project.client_brief (pyOrOS project.executive_summary "")⟩,
      ⟨project.id, "Visual Direction Brief", "Design", "html",
        ag.docContent "visual_direction_brief" project.name project.client_brief (pyOrOS project.executive_summary "")⟩ ]
    let budget : Int := project.budget_cap
    let total_estimated := running_total
    let remaining : Int := if budget > 0 then budget - total_estimated else 0
    let budget_line :=
      if budget > 0 then
        "**Budget:** $" ++ toString budget ++ " · **Estimated scope cost:** $"
        ++ toString total_estimated ++ " · **Remaining:** $" ++ toString remaining
      else "**Budget:** Not set — showing full recommended scope."
    let budget_note :=
      if budget > 0 then
        if remaining < 0 then
          "\n\n⚠️ I've pre-selected deliverables that fit within your budget. You can adjust the selection below."
        else if remaining > 500 then
          "\n\n✅ Budget has room. You could add custom deliverables or increase scope."
        else "\n\n✅ Scope fits your budget. Review and adjust as needed."
      else "\n\n⚠️ No budget set. All deliverables are included. Set a budget in project settings to enable cost tracking."
    let audit_table :=
      "| Item | Cost | Time | Rationale |\n| :--- | :--- | :--- | :--- |\n"
      ++ String.join ((annotated.filter (fun i => (i.selected).getD false)).map auditRow)
    let deliverables_body :=
      "Based on the approved strategy and a budget analysis, here is the justified scope breakdown:\n\n"
      ++ budget_line ++ "\n\n### Recommended Scope Audit\n" ++ audit_table ++ "\n\n"
      ++ budget_note ++ "\n\nReview the full selection below to approve or adjust."
    let step : WorkflowStep := {
      id := 0, project_id := project.id, step_type := "decision_gate", agent := "Director",
      title := "Deliverable Selection", body := deliverables_body,
      options := annotated, status := "active", phase := "design",
      sort_order := max_order + 2 }
    let review_status := if payload.chosen_option = some "revise" then "REJECTED" else "PENDING"
    .ok { created := [milestone, step],
          project := { project with review_status := review_status },
          newDocuments := docs, newDeliverables := [], newTasks := [] }
  else
    let step : WorkflowStep := {
      id := 0, project_id := project.id, step_type := "input_needed", agent := "Strategist",
      title := "Strategy Revisions",
      body := "What would you like me to change about the strategic direction? Please describe what feels off or what you'd like to emphasize differently.",
      status := "active", phase := "strategy", sort_order := resolved_step.sort_order + 1 }
    .ok { created := [step],
          project := { project with review_status := "REJECTED" },
          newDocuments := [], newDeliverables := [], newTasks := [] }

/-- A model of `json.loads` restricted to flat JSON arrays of escape-free
strings (the only shape `chosen_option` carries); any other input is a parse
failure.  This parses one quoted element. -/
def jsonLoadsStrBody (t : String) : Option String :=
  match trimChars t.data with
  | '"' :: rest =>
      if rest.getLast? = some '"' then some (String.mk rest.dropLast) else none
  | _ => none

/-- See `jsonLoadsStrBody`: parses a flat JSON array of strings. -/
def jsonLoadsStrList (s : String) : Option (List String) :=
  match trimChars s.data with
  | '[' :: rest =>
      if rest.getLast? = some ']' then
        if trimChars rest.dropLast = [] then some []
        else ((splitCommaChars (trimChars rest.dropLast)).map (fun cs => String.mk cs)).mapM jsonLoadsStrBody
      else none
  | _ => none

/-- Parsing of the chosen deliverable keys (`main.py:1029-1037`): a
"`[`"-prefixed value is parsed as JSON, any parse failure or other value
falls back to a comma split. -/
def parseChosenKeys (chosen : String) : List String :=
  if strStartsWith chosen "[" then
    match jsonLoadsStrList chosen with
    | some ks => ks
    | none => splitKeys chosen
  else splitKeys chosen

/-- The deliverable-creation loop (`main.py:1043-1053`): one `Pending`
"Agent"-owned row per catalog entry whose key is among the chosen keys;
`item["title"]` raises on a chosen entry without a title.  Returns the rows,
the accumulated `total_cost` and the `created_titles` lines. -/
def deliverableRows (pid : Nat) (ks : List String) : List OptionRecord → Except String (List Deliverable × Int × List String)
  | [] => .ok ([], 0, [])
  | item :: rest =>
    if ks.contains ((item.key).getD "") then
      match item.title with
      | none => .error "KeyError: 'title'"
      | some t =>
        match deliverableRows pid ks rest with
        | .error e => .error e
        | .ok (ds, total, titles) =>
          let item_cost := (item.cost).getD 0
          .ok (⟨pid, t, "Pending", "Agent"⟩ :: ds, item_cost + total,
               (t ++ " ($" ++ toString item_cost ++ ")") :: titles)
    else deliverableRows pid ks rest

/-- The `decision_gate` / "Deliverable Selection" branch
(`main.py:1020-1115`). -/
def branchDeliverableSelection (resolved_step : WorkflowStep) (project : Project) (payload : Payload) : Except String NextResult :=
  match deliverableRows project.id (parseChosenKeys (pyOrOS payload.chosen_option "")) resolved_step.options with
  | .error e => .error e
  | .ok (rows, total_cost, picked_titles) =>
    let max_order := resolved_step.sort_order
    let custom_input := pyOrOS payload.input_text ""
    let customRows := (splitKeys custom_input).map
      (fun c => (⟨project.id, c, "Pending", "Founder"⟩ : Deliverable))
    let created_titles := picked_titles ++ (splitKeys custom_input).map (fun c => c ++ " (custom)")
    let project' := { project with review_status := "APPROVED", stage := "Design", status := "Design" }
    let budget := project.budget_cap
    let remaining := if budget > 0 then budget - total_cost else 0
    let margin_pct := if budget > 0 then (budget - total_cost) * 100 / budget else 0
    let budget_body :=
      "**Deliverables Confirmed** — " ++ toString created_titles.length ++ " items locked in.\n\n"
      ++ String.intercalate "\n" (created_titles.map (fun t => "- " ++ t))
      ++ "\n\n---\n\n**Total estimated cost:** $" ++ toString total_cost
      ++ "\n**Project budget:** " ++ (if budget > 0 then "$" ++ toString budget else "Not set")
      ++ "\n**Remaining budget:** " ++ (if budget > 0 then "$" ++ toString remaining else "N/A")
      ++ "\n**Projected margin:** " ++ (if budget > 0 then toString margin_pct ++ "%" else "N/A")
      ++ "\n\n" ++ (if remaining ≥ 0 then "✅ Budget allocation approved. Design phase begins."
                    else "⚠️ Scope exceeds budget by $" ++ toString (-remaining) ++ ". Consider adjusting scope or increasing budget.")
    let milestone : WorkflowStep := {
      id := 0, project_id := project.id, step_type := "milestone", agent := "System",
      title := "Deliverables Confirmed",
      body := "✓ " ++ toString created_titles.length ++ " deliverables created. Moving to Design phase.",
      status := "resolved", phase := "design", sort_order := max_order + 1 }
    let budgetStep : WorkflowStep := {
      id := 0, project_id := project.id, step_type := "agent_output", agent := "CFO",
      title := "Budget Allocation", body := budget_body,
      status := "active", phase := "design", sort_order := max_order + 2 }
    .ok { created := [milestone, budgetStep], project := project',
          newDocuments := [], newDeliverables := rows ++ customRows, newTasks := [] }

/-- `generate_next_steps` (`main.py:708-1117`): dispatch on the
`(step_type, title)` pair of the resolved step; an unrecognized pair falls
through to the plain `return created` with nothing created. -/
def generate_next_steps (ag : AgentOracles) (resolved_step : WorkflowStep) (project : Project) (payload : Payload) : Except String NextResult :=
  if resolved_step.step_type = "input_needed" ∧ resolved_step.title = "Project Brief" then
    .ok (branchProjectBrief ag resolved_step project payload)
  else if resolved_step.step_type = "decision_gate" ∧ resolved_step.title = "Strategic Direction" then
    branchStrategicDirection ag resolved_step project payload
  else if resolved_step.step_type = "approval_gate" ∧ resolved_step.title = "Strategy Review" then
    branchStrategyReview ag resolved_step project payload
  else if resolved_step.step_type = "decision_gate" ∧ resolved_step.title = "Deliverable Selection" then
    branchDeliverableSelection resolved_step project payload
  else
    .ok { created := [], project := project, newDocuments := [], newDeliverables := [], newTasks := [] }

/-! ## `main.py` — the resolve endpoint and workflow seeding -/

/-- The JSON body returned by a successful resolve call. -/
structure ResolveOk where
  step_id : Nat
  next_steps_created : Nat
deriving DecidableEq, Repr

/-- `session.get(WorkflowStep, step_id)`. -/
def findStep (db : DB) (sid : Nat) : Option WorkflowStep :=
  db.steps.find? (fun s => s.id == sid)

/-- `session.get(Project, project_id)`. -/
def findProject (db : DB) (pid : Nat) : Option Project :=
  db.projects.find? (fun p => p.id == pid)

/-- The resolved value recorded on the step
(`payload.chosen_option or payload.input_text or payload.action`,
`main.py:693`). -/
def resolvedValue (payload : Payload) : String :=
  pyOrOS payload.chosen_option (pyOrOS payload.input_text payload.action)

/-- The step row after the resolution marking of `main.py:691-693`. -/
def markStep (payload : Payload) (s : WorkflowStep) : WorkflowStep :=
  { s with status := "resolved", chosen_option := some (resolvedValue payload) }

/-- The database right after the first `session.commit()`
(`main.py:696`): only the resolved step row has changed. -/
def commitResolved (db : DB) (payload : Payload) : DB :=
  { db with steps := db.steps.map (fun s => if s.id == payload.step_id then markStep payload s else s) }

/-- `resolve_workflow_step` (`main.py:684-706`).  Returns the observable
database state together with the success body (`none` = an HTTP error was
raised).  The step-resolution marking is committed first; the writes of
`generate_next_steps` are committed separately afterwards, and are discarded
when that call raises. -/
def resolve_workflow_step (ag : AgentOracles) (db : DB) (project_id : Nat) (payload : Payload) : DB × Option ResolveOk :=
  match findStep db payload.step_id with
  | none => (db, none)
  | some step =>
    if step.project_id ≠ project_id then (db, none)
    else
      let step' := markStep payload step
      let db1 := commitResolved db payload
      match findProject db1 project_id with
      | none => (db1, none)
      | some project =>
        match generate_next_steps ag step' project payload with
        | .error _ => (db1, none)
        | .ok res =>
          ({ db1 with
              steps := db1.steps ++ res.created,
              projects := db1.projects.map (fun p => if p.id == project_id then res.project else p),
              documents := db1.documents ++ res.newDocuments,
              deliverables := db1.deliverables ++ res.newDeliverables,
              tasks := db1.tasks ++ res.newTasks },
           some ⟨step'.id, res.created.length⟩)

/-- The status strings returned by `seed_workflow`. -/
inductive SeedStatus where
  | notFound
  | already
  | seeded
deriving DecidableEq, Repr

/-- The first workflow step created by seeding (`main.py:1134-1143`); its
`project_id` is the endpoint's path parameter. -/
def projectBriefStep (project_id : Nat) (project : Project) : WorkflowStep :=
  { id := 0, project_id := project_id, step_type := "input_needed", agent := "Strategist",
    title := "Project Brief",
    body := "Welcome to " ++ project.name ++ ". Before I can begin strategic analysis, I need to understand what we're building.\n\nDescribe the project in your own words — the vision, the audience, what makes it different. Don't worry about being polished; raw intent is more useful than corporate language.",
    options := [], status := "active", phase := "strategy", sort_order := 0 }

/-- `seed_workflow` (`main.py:1119-1146`): creates the "Project Brief" step
when the project has no workflow steps yet, and is a no-op returning
"exists" otherwise. -/
def seed_workflow (db : DB) (project_id : Nat) : DB × SeedStatus :=
  match findProject db project_id with
  | none => (db, .notFound)
  | some project =>
    if (db.steps.filter (fun s => s.project_id == project_id)) ≠ [] then (db, .already)
    else ({ db with steps := db.steps ++ [projectBriefStep project_id project] }, .seeded)

/-! ## Concrete instances used by witnesses and counterexamples -/

/-- A concrete oracle environment: no LLM reachable (every external call
raises), a fixed strategy record, constant document content. -/
def wAgs : AgentOracles :=
  { dirAgent := .error "offline", strategyResult := ⟨"Positioning", ["P1"], ["T1"], ["D1"]⟩,
    recAgent := .error "offline", docContent := fun _ _ _ _ => "<p>doc</p>" }

/-- A concrete project with a $3,000 budget cap. -/
def wProj : Project :=
  { id := 1, name := "Templo", client_brief := "A sustainable coffee brand", budget_cap := 3000 }

/-- A "Strategy Review" approval gate step of `wProj`. -/
def wStepSR : WorkflowStep :=
  { id := 6, project_id := 1, step_type := "approval_gate", agent := "Strategist",
    title := "Strategy Review", body := "review", sort_order := 4 }

/-- An approval payload for `wStepSR`. -/
def wPayApprove : Payload := { step_id := 6, action := "approve" }

/-- A rejection payload (no `chosen_option`). -/
def wPayReject : Payload := { step_id := 6, action := "reject" }

/-- A rejection action combined with `chosen_option = "approve"`. -/
def wPayRejectChosenApprove : Payload :=
  { step_id := 6, action := "reject", chosen_option := some "approve" }

/-- Extracts the successful result of `generate_next_steps` (placeholder
result on error; only ever used where the call succeeds). -/
def nextResOr (p : Project) (r : Except String NextResult) : NextResult :=
  match r with
  | .ok res => res
  | .error _ => { created := [], project := p, newDocuments := [], newDeliverables := [], newTasks := [] }

/-- The concrete engine output for resolving `wStepSR` with approve. -/
def wResSR : NextResult := nextResOr wProj (generate_next_steps wAgs wStepSR wProj wPayApprove)

/-- A "Project Brief" step of `wProj`. -/
def wStepPB : WorkflowStep :=
  { id := 8, project_id := 1, step_type := "input_needed", agent := "Strategist",
    title := "Project Brief", body := "welcome", sort_order := 0 }

/-- A brief-submission payload. -/
def wPayInput : Payload :=
  { step_id := 8, action := "input", input_text := some "A sustainable coffee brand" }

/-- Oracles with the strategist reachable through the no-client fallback of
`generate_strategic_directions_llm`. -/
def wAgsDir : AgentOracles :=
  { wAgs with dirAgent := .ok (generate_strategic_directions_llm false (.error "no client") "Templo") }

/-- A "Strategic Direction" decision gate of `wProj` carrying the fallback
directions. -/
def wStepSD : WorkflowStep :=
  { id := 9, project_id := 1, step_type := "decision_gate", agent := "Strategist",
    title := "Strategic Direction", body := "pick", options := fallback_directions "Templo",
    sort_order := 1 }

/-- A payload choosing direction "A". -/
def wPayChooseA : Payload := { step_id := 9, action := "choose", chosen_option := some "A" }

/-- The concrete engine output for choosing direction "A". -/
def wResSD : NextResult := nextResOr wProj (generate_next_steps wAgs wStepSD wProj wPayChooseA)

/-- A "Deliverable Selection" decision gate of `wProj` carrying the catalog. -/
def wStepDS : WorkflowStep :=
  { id := 7, project_id := 1, step_type := "decision_gate", agent := "Director",
    title := "Deliverable Selection", body := "select", options := catalog, sort_order := 9 }

/-- A payload choosing two catalog keys. -/
def wPayChooseKeys : Payload :=
  { step_id := 7, action := "choose", chosen_option := some "brand_strategy, website" }

/-- The concrete engine output for confirming the deliverable selection. -/
def wResDS : NextResult := nextResOr wProj (generate_next_steps wAgs wStepDS wProj wPayChooseKeys)

/-- An unrecognized step: a milestone title no transition matches. -/
def wStepMilestone : WorkflowStep :=
  { id := 11, project_id := 1, step_type := "milestone", agent := "System",
    title := "Strategy Phase Complete", body := "done", sort_order := 5 }

/-- A "Strategic Direction" step whose stored `options_json` is the default
`"[]"`: resolving it makes `generate_next_steps` raise `IndexError` at
`options[0]` (`main.py:770`) after the first commit. -/
def cStepEmptyOptions : WorkflowStep :=
  { id := 5, project_id := 1, step_type := "decision_gate", agent := "Strategist",
    title := "Strategic Direction", body := "pick", options := [], sort_order := 3 }

/-- A database holding `wProj` and `cStepEmptyOptions`. -/
def cDb : DB :=
  { projects := [wProj], steps := [cStepEmptyOptions], documents := [], deliverables := [], tasks := [] }

/-- The payload resolving `cStepEmptyOptions`. -/
def cPay : Payload := { step_id := 5, action := "choose", chosen_option := some "A" }

/-- A database with `wProj` and no workflow steps, for seeding. -/
def wDbEmpty : DB :=
  { projects := [wProj], steps := [], documents := [], deliverables := [], tasks := [] }

/-! ## Helper lemmas -/

/-- Total cost of the entries an annotated catalog marks `selected`. -/
def selectedCost (items : List OptionRecord) : Int :=
  ((items.filter (fun i => (i.selected).getD false)).map (fun i => (i.cost).getD 0)).sum

theorem selectedCost_nil : selectedCost [] = 0 := rfl

theorem selectedCost_cons (i : OptionRecord) (rest : List OptionRecord) :
    selectedCost (i :: rest) =
      (if (i.selected).getD false then (i.cost).getD 0 else 0) + selectedCost rest := by
  by_cases h : (i.selected).getD false = true
  · simp [selectedCost, h]
  · simp [selectedCost, h, List.filter_cons]

theorem select_deliverables_total (recommended : List String) (budget : Int)
    (cat : List OptionRecord) :
    ∀ (t total : Int) (out : List OptionRecord),
      select_deliverables recommended budget t cat = .ok (out, total) →
      selectedCost out = total - t := by
  induction cat with
  | nil =>
    intro t total out h
    rw [select_deliverables] at h
    simp only [Except.ok.injEq, Prod.mk.injEq] at h
    obtain ⟨h1, h2⟩ := h
    subst h1; subst h2
    simp [selectedCost]
  | cons item rest ih =>
    intro t total out h
    rw [select_deliverables] at h
    split at h
    · cases htitle : item.title with
      | none => rw [htitle] at h; exact absurd h (by simp)
      | some tt =>
        rw [htitle] at h
        cases hrec : select_deliverables recommended budget (t + (item.cost).getD 0) rest with
        | error e => rw [hrec] at h; exact absurd h (by simp)
        | ok pr =>
          rw [hrec] at h
          simp only [Except.ok.injEq, Prod.mk.injEq] at h
          obtain ⟨h1, h2⟩ := h
          subst h1; subst h2
          have := ih (t + (item.cost).getD 0) pr.2 pr.1 (by rw [hrec])
          rw [selectedCost_cons]
          simp
          omega
    · cases hrec : select_deliverables recommended budget t rest with
      | error e => rw [hrec] at h; exact absurd h (by simp)
      | ok pr =>
        rw [hrec] at h
        simp only [Except.ok.injEq, Prod.mk.injEq] at h
        obtain ⟨h1, h2⟩ := h
        subst h1; subst h2
        have := ih t pr.2 pr.1 (by rw [hrec])
        rw [selectedCost_cons]
        simp
        omega

theorem select_deliverables_bound (recommended : List String) (budget : Int)
    (cat : List OptionRecord) :
    ∀ (t total : Int) (out : List OptionRecord),
      0 < budget → t ≤ budget →
      select_deliverables recommended budget t cat = .ok (out, total) →
      total ≤ budget := by
  induction cat with
  | nil =>
    intro t total out hb ht h
    rw [select_deliverables] at h
    simp only [Except.ok.injEq, Prod.mk.injEq] at h
    omega
  | cons item rest ih =>
    intro t total out hb ht h
    rw [select_deliverables] at h
    split at h
    · rename_i hcond
      have hfit : t + (item.cost).getD 0 ≤ budget := by
        rcases hcond with h0 | ⟨_, hle⟩
        · omega
        · exact hle
      cases htitle : item.title with
      | none => rw [htitle] at h; exact absurd h (by simp)
      | some tt =>
        rw [htitle] at h
        cases hrec : select_deliverables recommended budget (t + (item.cost).getD 0) rest with
        | error e => rw [hrec] at h; exact absurd h (by simp)
        | ok pr =>
          rw [hrec] at h
          simp only [Except.ok.injEq, Prod.mk.injEq] at h
          obtain ⟨_, h2⟩ := h
          subst h2
          exact ih _ _ _ hb hfit (by rw [hrec])
    · cases hrec : select_deliverables recommended budget t rest with
      | error e => rw [hrec] at h; exact absurd h (by simp)
      | ok pr =>
        rw [hrec] at h
        simp only [Except.ok.injEq, Prod.mk.injEq] at h
        obtain ⟨_, h2⟩ := h
        subst h2
        exact ih _ _ _ hb ht (by rw [hrec])

theorem select_deliverables_all_selected (recommended : List String) (budget : Int)
    (cat : List OptionRecord) (hb : budget ≤ 0) :
    ∀ (t total : Int) (out : List OptionRecord),
      select_deliverables recommended budget t cat = .ok (out, total) →
      ∀ i ∈ out, i.selected = some true := by
  induction cat with
  | nil =>
    intro t total out h
    rw [select_deliverables] at h
    simp only [Except.ok.injEq, Prod.mk.injEq] at h
    obtain ⟨h1, _⟩ := h
    subst h1
    intro i hi
    exact absurd hi (by simp)
  | cons item rest ih =>
    intro t total out h
    rw [select_deliverables] at h
    split at h
    · cases htitle : item.title with
      | none => rw [htitle] at h; exact absurd h (by simp)
      | some tt =>
        rw [htitle] at h
        cases hrec : select_deliverables recommended budget (t + (item.cost).getD 0) rest with
        | error e => rw [hrec] at h; exact absurd h (by simp)
        | ok pr =>
          rw [hrec] at h
          simp only [Except.ok.injEq, Prod.mk.injEq] at h
          obtain ⟨h1, _⟩ := h
          subst h1
          intro i hi
          rcases List.mem_cons.mp hi with hi | hi
          · subst hi; rfl
          · exact ih _ _ _ (by rw [hrec]) i hi
    · rename_i hcond
      exact absurd (Or.inl hb) hcond

theorem fallback_deliverables_eq_selected (cat : List OptionRecord) :
    ∀ budget : Int,
      fallback_deliverables budget cat = (fallback_selected budget cat).map (fun d => (d.key).getD "") := by
  induction cat with
  | nil => intro b; rfl
  | cons d rest ih =>
    intro b
    rw [fallback_deliverables, fallback_selected]
    by_cases hc : (d.cost).getD 0 ≤ b
    · simp [hc, ih]
    · simp [hc, ih]

theorem fallback_selected_cost_le (cat : List OptionRecord) :
    ∀ budget : Int, 0 ≤ budget →
      ((fallback_selected budget cat).map (fun d => (d.cost).getD 0)).sum ≤ budget := by
  induction cat with
  | nil => intro b hb; simpa [fallback_selected] using hb
  | cons d rest ih =>
    intro b hb
    rw [fallback_selected]
    by_cases hc : (d.cost).getD 0 ≤ b
    · simp only [hc, if_pos, List.map_cons, List.sum_cons]
      have hrest := ih (safe_sub b ((d.cost).getD 0)) (by simp only [safe_sub]; omega)
      simp only [safe_sub] at hrest ⊢
      omega
    · simp only [hc, if_neg]
      exact ih b hb

theorem deliverableRows_rows (pid : Nat) (ks : List String) (items : List OptionRecord) :
    ∀ rows total titles,
      deliverableRows pid ks items = .ok (rows, total, titles) →
      rows = (items.filter (fun i => ks.contains ((i.key).getD ""))).map
        (fun i => ({ project_id := pid, title := (i.title).getD "", status := "Pending", owner := "Agent" } : Deliverable)) := by
  induction items with
  | nil =>
    intro rows total titles h
    rw [deliverableRows] at h
    simp only [Except.ok.injEq, Prod.mk.injEq] at h
    obtain ⟨h1, _⟩ := h
    subst h1
    rfl
  | cons item rest ih =>
    intro rows total titles h
    rw [deliverableRows] at h
    by_cases hk : ks.contains ((item.key).getD "") = true
    · rw [if_pos hk] at h
      cases htitle : item.title with
      | none => rw [htitle] at h; exact absurd h (by simp)
      | some tt =>
        rw [htitle] at h
        cases hrec : deliverableRows pid ks rest with
        | error e => rw [hrec] at h; exact absurd h (by simp)
        | ok pr =>
          rw [hrec] at h
          simp only [Except.ok.injEq, Prod.mk.injEq] at h
          obtain ⟨h1, _⟩ := h
          subst h1
          simp only [List.filter_cons, hk, if_pos, List.map_cons, htitle]
          have := ih pr.1 pr.2.1 pr.2.2 (by rw [hrec])
          simp only [this]
          simp
    · rw [if_neg hk] at h
      have := ih rows total titles h
      simp only [List.filter_cons]
      rw [if_neg (by simpa using hk)]
      exact this

theorem branchProjectBrief_created (ag : AgentOracles) (step : WorkflowStep)
    (project : Project) (payload : Payload) :
    ((branchProjectBrief ag step project payload).created).map (fun s => s.sort_order) =
      [step.sort_order + 1] := rfl

theorem branchStrategicDirection_ok (ag : AgentOracles) (step : WorkflowStep)
    (project : Project) (payload : Payload) (res : NextResult) :
    branchStrategicDirection ag step project payload = .ok res →
    res.created.map (fun s => s.sort_order) = [step.sort_order + 1] ∧
    res.newTasks.map (fun t => (t.project_id, t.title)) =
      [(project.id, "Phase 2: Review Full Strategy"), (project.id, "Phase 2: Approve Brand Pillars"),
       (project.id, "Phase 2: Review Full Strategy"), (project.id, "Phase 2: Approve Brand Pillars")] := by
  intro h
  rw [branchStrategicDirection] at h
  split at h
  · exact absurd h (by simp)
  · split at h
    · exact absurd h (by simp)
    · split at h
      · simp only [Except.ok.injEq] at h
        subst h
        exact ⟨by simp, by simp⟩
      all_goals exact absurd h (by simp)

theorem branchStrategyReview_ok (ag : AgentOracles) (step : WorkflowStep)
    (project : Project) (payload : Payload) (res : NextResult) :
    branchStrategyReview ag step project payload = .ok res →
    res.created.map (fun s => s.sort_order) = [step.sort_order + 1, step.sort_order + 2] ∨
    res.created.map (fun s => s.sort_order) = [step.sort_order + 1] := by
  intro h
  rw [branchStrategyReview] at h
  split at h
  · split at h
    · exact absurd h (by simp)
    · cases h; left; simp
  · cases h; right; simp

theorem branchDeliverableSelection_ok (step : WorkflowStep) (project : Project)
    (payload : Payload) (res : NextResult) :
    branchDeliverableSelection step project payload = .ok res →
    res.created.map (fun s => s.sort_order) = [step.sort_order + 1, step.sort_order + 2] := by
  intro h
  rw [branchDeliverableSelection] at h
  split at h
  · exact absurd h (by simp)
  · cases h; simp

theorem mono_of_map_single (base : Int) (l : List WorkflowStep)
    (hm : l.map (fun s => s.sort_order) = [base + 1]) :
    (∀ s ∈ l, base < s.sort_order) ∧ List.Pairwise (· < ·) (l.map (fun s => s.sort_order)) := by
  constructor
  · intro s hs
    have hmem : s.sort_order ∈ l.map (fun s => s.sort_order) := List.mem_map_of_mem _ hs
    rw [hm] at hmem
    simp at hmem
    omega
  · rw [hm]; simp

theorem mono_of_map_pair (base : Int) (l : List WorkflowStep)
    (hm : l.map (fun s => s.sort_order) = [base + 1, base + 2]) :
    (∀ s ∈ l, base < s.sort_order) ∧ List.Pairwise (· < ·) (l.map (fun s => s.sort_order)) := by
  constructor
  · intro s hs
    have hmem : s.sort_order ∈ l.map (fun s => s.sort_order) := List.mem_map_of_mem _ hs
    rw [hm] at hmem
    simp at hmem
    rcases hmem with hmem | hmem <;> omega
  · rw [hm]
    simp [List.pairwise_cons]
    try omega

theorem dispatch_project_brief (ag : AgentOracles) (step : WorkflowStep)
    (project : Project) (payload : Payload)
    (hty : step.step_type = "input_needed") (hti : step.title = "Project Brief") :
    generate_next_steps ag step project payload = .ok (branchProjectBrief ag step project payload) := by
  rw [generate_next_steps, if_pos ⟨hty, hti⟩]

theorem dispatch_strategic_direction (ag : AgentOracles) (step : WorkflowStep)
    (project : Project) (payload : Payload)
    (hty : step.step_type = "decision_gate") (hti : step.title = "Strategic Direction") :
    generate_next_steps ag step project payload = branchStrategicDirection ag step project payload := by
  rw [generate_next_steps, if_neg (by simp [hty]), if_pos ⟨hty, hti⟩]

theorem dispatch_strategy_review (ag : AgentOracles) (step : WorkflowStep)
    (project : Project) (payload : Payload)
    (hty : step.step_type = "approval_gate") (hti : step.title = "Strategy Review") :
    generate_next_steps ag step project payload = branchStrategyReview ag step project payload := by
  rw [generate_next_steps, if_neg (by simp [hty]), if_neg (by simp [hty]), if_pos ⟨hty, hti⟩]

theorem dispatch_deliverable_selection (ag : AgentOracles) (step : WorkflowStep)
    (project : Project) (payload : Payload)
    (hty : step.step_type = "decision_gate") (hti : step.title = "Deliverable Selection") :
    generate_next_steps ag step project payload = branchDeliverableSelection step project payload := by
  rw [generate_next_steps, if_neg (by simp [hti]), if_neg (by simp [hti]),
      if_neg (by simp [hty]), if_pos ⟨hty, hti⟩]

/-- **C5**: every step created by one `generate_next_steps` call has a
`sort_order` strictly greater than the resolved step's, and siblings created
in the same call carry strictly increasing `sort_order` values. -/
theorem created_steps_sort_order_monotone (ag : AgentOracles) (step : WorkflowStep)
    (project : Project) (payload : Payload) (res : NextResult)
    (hok : generate_next_steps ag step project payload = .ok res) :
    (∀ s ∈ res.created, step.sort_order < s.sort_order) ∧
    List.Pairwise (· < ·) (res.created.map (fun s => s.sort_order)) := by
  rw [generate_next_steps] at hok
  split at hok
  · simp only [Except.ok.injEq] at hok
    subst hok
    exact mono_of_map_single _ _ (branchProjectBrief_created ag step project payload)
  · split at hok
    · exact mono_of_map_single _ _ (branchStrategicDirection_ok ag step project payload res hok).1
    · split at hok
      · rcases branchStrategyReview_ok ag step project payload res hok with hm | hm
        · exact mono_of_map_pair _ _ hm
        · exact mono_of_map_single _ _ hm
      · split at hok
        · exact mono_of_map_pair _ _ (branchDeliverableSelection_ok step project payload res hok)
        · simp only [Except.ok.injEq] at hok
          subst hok
          exact ⟨by simp, by simp⟩

/-- Witness for `created_steps_sort_order_monotone`: the concrete approve
resolution of `wStepSR`. -/
theorem created_steps_sort_order_monotone_witness :
    (∀ s ∈ wResSR.created, wStepSR.sort_order < s.sort_order) ∧
    List.Pairwise (· < ·) (wResSR.created.map (fun s => s.sort_order)) :=
  created_steps_sort_order_monotone wAgs wStepSR wProj wPayApprove wResSR rfl

/-- **C2**: resolving "Strategy Review" with approve produces a
"Deliverable Selection" step whose annotated catalog satisfies the budget
discipline: for `budget_cap > 0` the summed cost of `selected` entries stays
within the budget, and for `budget_cap ≤ 0` every entry is selected. -/
theorem strategy_review_budget_selection (ag : AgentOracles) (step : WorkflowStep)
    (project : Project) (payload : Payload) (res : NextResult)
    (hty : step.step_type = "approval_gate") (hti : step.title = "Strategy Review")
    (hap : payload.action = "approve")
    (hok : generate_next_steps ag step project payload = .ok res) :
    ∃ ms sel, res.created = [ms, sel] ∧ sel.title = "Deliverable Selection" ∧
      (0 < project.budget_cap → selectedCost sel.options ≤ project.budget_cap) ∧
      (project.budget_cap ≤ 0 → ∀ i ∈ sel.options, i.selected = some true) := by
  rw [dispatch_strategy_review ag step project payload hty hti] at hok
  rw [branchStrategyReview, if_pos (Or.inl hap)] at hok
  cases hsel : select_deliverables (recommendedKeys ag) project.budget_cap 0 catalog with
  | error e => rw [hsel] at hok; exact absurd hok (by simp)
  | ok pr =>
    obtain ⟨annotated, total⟩ := pr
    rw [hsel] at hok
    simp only [Except.ok.injEq] at hok
    subst hok
    refine ⟨_, _, rfl, rfl, ?_, ?_⟩
    · intro hb
      have htot := select_deliverables_total (recommendedKeys ag) project.budget_cap catalog 0 total annotated hsel
      have hbnd := select_deliverables_bound (recommendedKeys ag) project.budget_cap catalog 0 total annotated hb (by omega) hsel
      show selectedCost annotated ≤ project.budget_cap
      omega
    · intro hb i hi
      exact select_deliverables_all_selected (recommendedKeys ag) project.budget_cap catalog hb 0 total annotated hsel i hi

/-- Witness for `strategy_review_budget_selection`: approving `wStepSR` on
the $3,000 project. -/
theorem strategy_review_budget_selection_witness :
    ∃ ms sel, wResSR.created = [ms, sel] ∧ sel.title = "Deliverable Selection" ∧
      (0 < wProj.budget_cap → selectedCost sel.options ≤ wProj.budget_cap) ∧
      (wProj.budget_cap ≤ 0 → ∀ i ∈ sel.options, i.selected = some true) :=
  strategy_review_budget_selection wAgs wStepSR wProj wPayApprove wResSR rfl rfl rfl rfl

/-- **C4 counterexample**: resolving "Strategy Review" with
`action = "reject"` but `chosen_option = "approve"` takes the approve path:
the "Strategy Phase Complete" milestone is created, no "Strategy Revisions"
step appears, and `review_status` becomes "PENDING" — so an action other
than approve does not always produce the rejection transition. -/
theorem strategy_review_reject_counterexample :
    wPayRejectChosenApprove.action ≠ "approve" ∧
    (generate_next_steps wAgs wStepSR wProj wPayRejectChosenApprove).toOption.map
      (fun r => (r.created.map (fun s => (s.step_type, s.title)), r.project.review_status)) =
    some ([("milestone", "Strategy Phase Complete"), ("decision_gate", "Deliverable Selection")], "PENDING") :=
  ⟨by decide, rfl⟩

/-- **C4 (amended)**: when *neither* `action` *nor* `chosen_option` equals
"approve", resolving "Strategy Review" creates exactly one new step, an
`input_needed` "Strategy Revisions", sets `review_status` to REJECTED, and
does not create the "Strategy Phase Complete" milestone. -/
theorem strategy_review_rejection_path (ag : AgentOracles) (step : WorkflowStep)
    (project : Project) (payload : Payload)
    (hty : step.step_type = "approval_gate") (hti : step.title = "Strategy Review")
    (hact : payload.action ≠ "approve") (hch : payload.chosen_option ≠ some "approve") :
    ∃ res st, generate_next_steps ag step project payload = .ok res ∧
      res.created = [st] ∧ st.step_type = "input_needed" ∧ st.title = "Strategy Revisions" ∧
      res.project.review_status = "REJECTED" ∧
      ∀ s ∈ res.created, s.title ≠ "Strategy Phase Complete" := by
  rw [dispatch_strategy_review ag step project payload hty hti]
  rw [branchStrategyReview, if_neg (by simp [hact, hch])]
  refine ⟨_, _, rfl, rfl, rfl, rfl, rfl, ?_⟩
  intro s hs
  simp only [List.mem_singleton] at hs
  subst hs
  simp

/-- Witness for `strategy_review_rejection_path`: rejecting `wStepSR`. -/
theorem strategy_review_rejection_path_witness :
    ∃ res st, generate_next_steps wAgs wStepSR wProj wPayReject = .ok res ∧
      res.created = [st] ∧ st.step_type = "input_needed" ∧ st.title = "Strategy Revisions" ∧
      res.project.review_status = "REJECTED" ∧
      ∀ s ∈ res.created, s.title ≠ "Strategy Phase Complete" :=
  strategy_review_rejection_path wAgs wStepSR wProj wPayReject rfl rfl (by decide) (by decide)

/-- **C9**: a resolved step whose `(step_type, title)` pair matches none of
the four recognized transitions makes `generate_next_steps` succeed with no
created steps, no documents, no deliverables, no tasks, and an unchanged
project. -/
theorem unrecognized_state_noop (ag : AgentOracles) (step : WorkflowStep)
    (project : Project) (payload : Payload)
    (h : ¬ ((step.step_type = "input_needed" ∧ step.title = "Project Brief") ∨
            (step.step_type = "decision_gate" ∧ step.title = "Strategic Direction") ∨
            (step.step_type = "approval_gate" ∧ step.title = "Strategy Review") ∨
            (step.step_type = "decision_gate" ∧ step.title = "Deliverable Selection"))) :
    generate_next_steps ag step project payload =
      .ok { created := [], project := project, newDocuments := [], newDeliverables := [], newTasks := [] } := by
  rw [not_or, not_or, not_or] at h
  obtain ⟨h1, h2, h3, h4⟩ := h
  rw [generate_next_steps, if_neg h1, if_neg h2, if_neg h3, if_neg h4]

/-- Witness for `unrecognized_state_noop`: resolving a milestone. -/
theorem unrecognized_state_noop_witness :
    generate_next_steps wAgs wStepMilestone wProj wPayApprove =
      .ok { created := [], project := wProj, newDocuments := [], newDeliverables := [], newTasks := [] } :=
  unrecognized_state_noop wAgs wStepMilestone wProj wPayApprove (by decide)

/-- **C10**: every successful resolution of a "Strategic Direction" decision
gate creates exactly four `GlobalTask` rows for the project, the two Phase 2
titles each appearing twice (the task block is duplicated in the source). -/
theorem strategic_direction_duplicate_tasks (ag : AgentOracles) (step : WorkflowStep)
    (project : Project) (payload : Payload) (res : NextResult)
    (hty : step.step_type = "decision_gate") (hti : step.title = "Strategic Direction")
    (hok : generate_next_steps ag step project payload = .ok res) :
    res.newTasks.map (fun t => (t.project_id, t.title)) =
      [(project.id, "Phase 2: Review Full Strategy"), (project.id, "Phase 2: Approve Brand Pillars"),
       (project.id, "Phase 2: Review Full Strategy"), (project.id, "Phase 2: Approve Brand Pillars")] ∧
    res.newTasks.length = 4 := by
  rw [dispatch_strategic_direction ag step project payload hty hti] at hok
  have hm := (branchStrategicDirection_ok ag step project payload res hok).2
  refine ⟨hm, ?_⟩
  have hlen := congrArg List.length hm
  simpa using hlen

/-- Witness for `strategic_direction_duplicate_tasks`: choosing direction
"A" on `wStepSD`. -/
theorem strategic_direction_duplicate_tasks_witness :
    wResSD.newTasks.map (fun t => (t.project_id, t.title)) =
      [(wProj.id, "Phase 2: Review Full Strategy"), (wProj.id, "Phase 2: Approve Brand Pillars"),
       (wProj.id, "Phase 2: Review Full Strategy"), (wProj.id, "Phase 2: Approve Brand Pillars")] ∧
    wResSD.newTasks.length = 4 :=
  strategic_direction_duplicate_tasks wAgs wStepSD wProj wPayChooseA wResSD rfl rfl rfl

theorem generate_directions_length_three (cl : Bool) (r : Except String (List OptionRecord)) (n : String)
    (h : cl = false ∨ (∃ e, r = Except.error e) ∨ (∃ ds, r = Except.ok ds ∧ ds.length = 3)) :
    (generate_strategic_directions_llm cl r n).length = 3 ∧
    (generate_strategic_directions_llm cl r n).isEmpty = false := by
  rcases h with h | ⟨e, h⟩ | ⟨ds, h, hlen⟩
  · subst h
    simp [generate_strategic_directions_llm, fallback_directions]
  · subst h
    cases cl <;> simp [generate_strategic_directions_llm, fallback_directions]
  · subst h
    cases cl
    · simp [generate_strategic_directions_llm, fallback_directions]
    · cases ds with
      | nil => simp at hlen
      | cons d rest =>
        refine ⟨?_, ?_⟩
        · simpa [generate_strategic_directions_llm] using hlen
        · simp [generate_strategic_directions_llm]

/-- **C6**: resolving "Project Brief" with a non-empty `input_text` updates
`client_brief` to the submitted text and creates exactly one new step — a
`decision_gate` "Strategic Direction" — whose options list has exactly 3
entries, under the collaborator contract that the direction generator, when
its LLM call succeeds, returns exactly 3 directions (both fallback paths
always return 3). -/
theorem project_brief_submission (ag : AgentOracles) (step : WorkflowStep)
    (project : Project) (payload : Payload) (t : String)
    (hty : step.step_type = "input_needed") (hti : step.title = "Project Brief")
    (hin : payload.input_text = some t) (hne : t ≠ "")
    (hdir : ∃ cl r, ag.dirAgent = .ok (generate_strategic_directions_llm cl r project.name) ∧
        (cl = false ∨ (∃ e, r = Except.error e) ∨ (∃ ds, r = Except.ok ds ∧ ds.length = 3))) :
    ∃ res st, generate_next_steps ag step project payload = .ok res ∧
      res.project.client_brief = t ∧
      res.created = [st] ∧ st.step_type = "decision_gate" ∧
      st.title = "Strategic Direction" ∧ st.options.length = 3 := by
  obtain ⟨cl, r, hag, hcases⟩ := hdir
  have hdl := generate_directions_length_three cl r project.name hcases
  rw [dispatch_project_brief ag step project payload hty hti]
  rw [branchProjectBrief]
  simp only [hag, hin, hdl.2, Bool.false_eq_true, if_false]
  refine ⟨_, _, rfl, ?_, rfl, rfl, rfl, hdl.1⟩
  simp [hne]

/-- Witness for `project_brief_submission`: submitting the coffee-brand
brief with the strategist in its no-client fallback. -/
theorem project_brief_submission_witness :
    ∃ res st, generate_next_steps wAgsDir wStepPB wProj wPayInput = .ok res ∧
      res.project.client_brief = "A sustainable coffee brand" ∧
      res.created = [st] ∧ st.step_type = "decision_gate" ∧
      st.title = "Strategic Direction" ∧ st.options.length = 3 :=
  project_brief_submission wAgsDir wStepPB wProj wPayInput "A sustainable coffee brand"
    rfl rfl rfl (by decide) ⟨false, .error "no client", rfl, Or.inl rfl⟩

/-- **C7**: resolving "Deliverable Selection" moves the project to stage and
status "Design" with `review_status` APPROVED, creates one `Pending`
agent-owned `Deliverable` row per chosen catalog key (plus founder-owned
rows for free-text customs, all `Pending`), and creates exactly two new
steps: a `milestone` "Deliverables Confirmed" already resolved and an
`agent_output` "Budget Allocation" active. -/
theorem deliverable_selection_resolution (ag : AgentOracles) (step : WorkflowStep)
    (project : Project) (payload : Payload) (res : NextResult)
    (hty : step.step_type = "decision_gate") (hti : step.title = "Deliverable Selection")
    (hok : generate_next_steps ag step project payload = .ok res) :
    res.project.stage = "Design" ∧ res.project.status = "Design" ∧
    res.project.review_status = "APPROVED" ∧
    res.created.map (fun s => (s.step_type, s.title, s.status)) =
      [("milestone", "Deliverables Confirmed", "resolved"),
       ("agent_output", "Budget Allocation", "active")] ∧
    res.newDeliverables.filter (fun d => d.owner = "Agent") =
      (step.options.filter (fun i =>
          (parseChosenKeys (pyOrOS payload.chosen_option "")).contains ((i.key).getD ""))).map
        (fun i => ({ project_id := project.id, title := (i.title).getD "",
                     status := "Pending", owner := "Agent" } : Deliverable)) ∧
    (∀ d ∈ res.newDeliverables, d.status = "Pending") := by
  rw [dispatch_deliverable_selection ag step project payload hty hti] at hok
  rw [branchDeliverableSelection] at hok
  cases hrows : deliverableRows project.id (parseChosenKeys (pyOrOS payload.chosen_option "")) step.options with
  | error e => rw [hrows] at hok; exact absurd hok (by simp)
  | ok pr =>
    obtain ⟨rows, total, titles⟩ := pr
    rw [hrows] at hok
    simp only [Except.ok.injEq] at hok
    subst hok
    have hrw := deliverableRows_rows project.id _ step.options rows total titles hrows
    refine ⟨rfl, rfl, rfl, by simp, ?_, ?_⟩
    · show (rows ++ (splitKeys (pyOrOS payload.input_text "")).map
          (fun c => (⟨project.id, c, "Pending", "Founder"⟩ : Deliverable))).filter
            (fun d => d.owner = "Agent") = _
      rw [List.filter_append]
      have h1 : rows.filter (fun d => d.owner = "Agent") = rows := by
        rw [List.filter_eq_self]
        intro d hd
        rw [hrw] at hd
        simp only [List.mem_map] at hd
        obtain ⟨i, _, hi⟩ := hd
        subst hi
        simp
      have h2 : ((splitKeys (pyOrOS payload.input_text "")).map
          (fun c => (⟨project.id, c, "Pending", "Founder"⟩ : Deliverable))).filter
            (fun d => d.owner = "Agent") = [] := by
        rw [List.filter_eq_nil_iff]
        intro d hd
        simp only [List.mem_map] at hd
        obtain ⟨c, _, hc⟩ := hd
        subst hc
        simp
      rw [h1, h2, List.append_nil, hrw]
    · intro d hd
      show d.status = "Pending"
      simp only [List.mem_append] at hd
      rcases hd with hd | hd
      · rw [hrw] at hd
        simp only [List.mem_map] at hd
        obtain ⟨i, _, hi⟩ := hd
        subst hi
        rfl
      · simp only [List.mem_map] at hd
        obtain ⟨c, _, hc⟩ := hd
        subst hc
        rfl

/-- Witness for `deliverable_selection_resolution`: confirming the two
chosen keys on `wStepDS`. -/
theorem deliverable_selection_resolution_witness :
    wResDS.project.stage = "Design" ∧ wResDS.project.status = "Design" ∧
    wResDS.project.review_status = "APPROVED" ∧
    wResDS.created.map (fun s => (s.step_type, s.title, s.status)) =
      [("milestone", "Deliverables Confirmed", "resolved"),
       ("agent_output", "Budget Allocation", "active")] ∧
    wResDS.newDeliverables.filter (fun d => d.owner = "Agent") =
      (wStepDS.options.filter (fun i =>
          (parseChosenKeys (pyOrOS wPayChooseKeys.chosen_option "")).contains ((i.key).getD ""))).map
        (fun i => ({ project_id := wProj.id, title := (i.title).getD "",
                     status := "Pending", owner := "Agent" } : Deliverable)) ∧
    (∀ d ∈ wResDS.newDeliverables, d.status = "Pending") :=
  deliverable_selection_resolution wAgs wStepDS wProj wPayChooseKeys wResDS rfl rfl (by rfl)

/-- **C8**: on a project with no workflow steps, `seed_workflow` creates
exactly one step, titled "Project Brief"; running it again on the resulting
state changes nothing and reports "exists", so seeding twice never yields a
second "Project Brief" step. -/
theorem seed_workflow_idempotent (db : DB) (pid : Nat) (project : Project)
    (hp : findProject db pid = some project)
    (hnone : db.steps.filter (fun s => s.project_id == pid) = []) :
    (seed_workflow db pid).2 = .seeded ∧
    ((seed_workflow db pid).1.steps.filter (fun s => s.project_id == pid)).map (fun s => s.title) =
      ["Project Brief"] ∧
    seed_workflow (seed_workflow db pid).1 pid = ((seed_workflow db pid).1, .already) := by
  have h1 : seed_workflow db pid = ({ db with steps := db.steps ++ [projectBriefStep pid project] }, .seeded) := by
    rw [seed_workflow]
    simp only [hp]
    rw [if_neg (by simp [hnone])]
  refine ⟨by rw [h1], ?_, ?_⟩
  · rw [h1]
    simp only [List.filter_append, hnone, List.nil_append]
    simp [projectBriefStep]
  · rw [h1]
    rw [seed_workflow]
    have hp2 : findProject { db with steps := db.steps ++ [projectBriefStep pid project] } pid = some project := hp
    simp only [hp2]
    rw [if_pos (by simp [List.filter_append, hnone, projectBriefStep])]

/-- Witness for `seed_workflow_idempotent`: seeding the empty database twice. -/
theorem seed_workflow_idempotent_witness :
    (seed_workflow wDbEmpty 1).2 = .seeded ∧
    ((seed_workflow wDbEmpty 1).1.steps.filter (fun s => s.project_id == 1)).map (fun s => s.title) =
      ["Project Brief"] ∧
    seed_workflow (seed_workflow wDbEmpty 1).1 1 = ((seed_workflow wDbEmpty 1).1, .already) :=
  seed_workflow_idempotent wDbEmpty 1 wProj rfl rfl

/-- **C1 counterexample**: resolving the "Strategic Direction" step whose
stored options list is empty makes next-step generation raise (`options[0]`,
`main.py:770`) *after* the first commit: the call fails (`none`), yet the
observable database differs from the initial one — the step is already
marked resolved while nothing else was written.  So the writes of one
`resolve` call are not one atomic unit. -/
theorem resolve_atomicity_counterexample :
    (resolve_workflow_step wAgs cDb 1 cPay).2 = none ∧
    (resolve_workflow_step wAgs cDb 1 cPay).1 ≠ cDb ∧
    (resolve_workflow_step wAgs cDb 1 cPay).1.steps.map (fun s => s.status) = ["resolved"] ∧
    cDb.steps.map (fun s => s.status) = ["active"] ∧
    (resolve_workflow_step wAgs cDb 1 cPay).1.steps.length = cDb.steps.length := by
  refine ⟨rfl, ?_, rfl, rfl, rfl⟩
  intro h
  have hcongr := congrArg (fun d => d.steps.map (fun s => s.status)) h
  simp only at hcongr
  exact absurd hcongr (by decide)

/-- **C1 (amended)**: the writes of a `resolve` call form *two* units, not
one: the step-resolution marking is committed before next-step generation.
When the call fails, the observable state is either the untouched database
(step lookup failed) or exactly the first commit — the step marked resolved
with no new steps, documents, deliverables, tasks, or project changes. -/
theorem resolve_failure_keeps_first_commit (ag : AgentOracles) (db : DB) (pid : Nat) (payload : Payload)
    (hfail : (resolve_workflow_step ag db pid payload).2 = none) :
    ((resolve_workflow_step ag db pid payload).1 = db ∨
     (resolve_workflow_step ag db pid payload).1 = commitResolved db payload) ∧
    (commitResolved db payload).projects = db.projects ∧
    (commitResolved db payload).documents = db.documents ∧
    (commitResolved db payload).deliverables = db.deliverables ∧
    (commitResolved db payload).tasks = db.tasks ∧
    (commitResolved db payload).steps.map (fun s => (s.id, s.step_type, s.title, s.sort_order)) =
      db.steps.map (fun s => (s.id, s.step_type, s.title, s.sort_order)) := by
  refine ⟨?_, rfl, rfl, rfl, rfl, ?_⟩
  · rw [resolve_workflow_step] at hfail ⊢
    cases hstep : findStep db payload.step_id with
    | none => simp [hstep]
    | some st =>
      simp only [hstep] at hfail ⊢
      by_cases hpid : st.project_id ≠ pid
      · simp [if_pos hpid]
      · rw [if_neg hpid] at hfail ⊢
        cases hproj : findProject (commitResolved db payload) pid with
        | none => simp [hproj]
        | some p =>
          simp only [hproj] at hfail ⊢
          cases hgen : generate_next_steps ag (markStep payload st) p payload with
          | error e => simp [hgen]
          | ok r => simp [hgen] at hfail
  · rw [commitResolved]
    simp only [List.map_map]
    apply List.map_congr_left
    intro s _
    by_cases hid : s.id = payload.step_id
    · simp [hid, markStep]
    · simp [hid]

/-- Witness for `resolve_failure_keeps_first_commit`: the failing resolution of
the empty-options "Strategic Direction" step. -/
theorem resolve_failure_keeps_first_commit_witness :
    (((resolve_workflow_step wAgs cDb 1 cPay).1 = cDb ∨
      (resolve_workflow_step wAgs cDb 1 cPay).1 = commitResolved cDb cPay) ∧
     (commitResolved cDb cPay).projects = cDb.projects ∧
     (commitResolved cDb cPay).documents = cDb.documents ∧
     (commitResolved cDb cPay).deliverables = cDb.deliverables ∧
     (commitResolved cDb cPay).tasks = cDb.tasks ∧
     (commitResolved cDb cPay).steps.map (fun s => (s.id, s.step_type, s.title, s.sort_order)) =
       cDb.steps.map (fun s => (s.id, s.step_type, s.title, s.sort_order))) :=
  resolve_failure_keeps_first_commit wAgs cDb 1 cPay rfl

/-- **C3 counterexample**: the two recommender-unavailable cases do *not*
share one policy.  With no LLM client configured and budget $800, the
selection takes every catalog item whose cost is ≤ the *full* budget without
decrementing — six items totalling $4,000 > $800 — while the
call-failed fallback (`_fallback_deliverables`) decrements and returns only
"brand_strategy" ($800). -/
theorem recommender_unavailable_counterexample :
    recommend_deliverables_llm false (.error "offline") 800 catalog =
      .ok ["brand_strategy", "visual_brief", "competitor_audit", "visual_templates",
           "social_kit", "launch_collateral"] ∧
    totalCostOfKeys catalog
      ["brand_strategy", "visual_brief", "competitor_audit", "visual_templates",
       "social_kit", "launch_collateral"] = 4000 ∧
    (800 : Int) < 4000 ∧
    fallback_deliverables 800 catalog = ["brand_strategy"] ∧
    totalCostOfKeys catalog ["brand_strategy"] = 800 :=
  ⟨rfl, rfl, by decide, rfl, rfl⟩

/-- **C3 (amended)**: when the external recommendation call fails with an
LLM client configured, the engine falls back to the deterministic first-fit
pass that decrements the remaining budget, and for a non-negative budget the
total cost of the items that pass accepts never exceeds the budget.  When no
LLM client is configured at all, the selection instead compares each item
against the full budget without decrementing, which can exceed the budget in
total (see the counterexample). -/
theorem recommend_failure_uses_decrementing_fallback (e : String) (B : Int)
    (cat : List OptionRecord) (hB : 0 ≤ B) :
    recommend_deliverables_llm true (.error e) B cat = .ok (fallback_deliverables B cat) ∧
    fallback_deliverables B cat = (fallback_selected B cat).map (fun d => (d.key).getD "") ∧
    ((fallback_selected B cat).map (fun d => (d.cost).getD 0)).sum ≤ B :=
  ⟨rfl, fallback_deliverables_eq_selected cat B, fallback_selected_cost_le cat B hB⟩

/-- Witness for `recommend_failure_uses_decrementing_fallback`: the real
catalog with budget $800. -/
theorem recommend_failure_uses_decrementing_fallback_witness :
    recommend_deliverables_llm true (.error "offline") 800 catalog =
      .ok (fallback_deliverables 800 catalog) ∧
    fallback_deliverables 800 catalog =
      (fallback_selected 800 catalog).map (fun d => (d.key).getD "") ∧
    ((fallback_selected 800 catalog).map (fun d => (d.cost).getD 0)).sum ≤ 800 :=
  recommend_failure_uses_decrementing_fallback "offline" 800 catalog (by decide)
